import Mathlib

/-!
# Verification of the progressive feature-and-prediction pipeline

Shallow embedding of the core of the repository: the snapshot parser
(`parse_single_json` in `ml/scripts/prepare_data.py` and
`ml/scripts/generate_historical_rnn_predictions.py`), the feature-table
builder (`process_all_data`, `prepare_data_subset`), the sequence
windower (`create_sequences`, both variants), the min-max scaler used by
the trainers, the train/validation split, and the progressive
walk-forward loop (`main` of `generate_historical_rnn_predictions.py`).

Python/JSON values are modelled by `JValue` (with `JValue.null` standing
for Python `None`, which is also what `json.load` produces for JSON
`null`).  Numeric cells are rationals.  Machine floats only occur in the
split-index computations `int(len(X) * 0.8)` and `ceil(0.2 * n)`; for the
list lengths that arise these float expressions round to the exact
integer results `4*n/5` and `(n+4)/5`, which is how they are embedded.
-/

/-- A JSON / Python value as produced by `json.load`.  `null` stands for
Python `None` (both an explicit JSON `null` and the result of a failed
`dict.get`). -/
inductive JValue where
  | null
  | num (q : ℚ)
  | bool (b : Bool)
  | str (s : String)
  | obj (fields : List (String × JValue))
  | arr (elems : List JValue)

/-- Lookup of a key in a Python dict (modelled as an association list):
`none` means the key is absent. -/
def jlookup (fs : List (String × JValue)) (k : String) : Option JValue :=
  match fs with
  | [] => none
  | (k', v) :: t => if k' = k then some v else jlookup t k

/-- Python `d.get(k, default)`: the stored value (even if `None`) when the
key is present, otherwise the default. -/
def pyGetD (fs : List (String × JValue)) (k : String) (d : JValue) : JValue :=
  (jlookup fs k).getD d

/-- Python `d.get(k)`: the stored value when present, otherwise `None`. -/
def pyGetN (fs : List (String × JValue)) (k : String) : JValue :=
  (jlookup fs k).getD .null

/-- Calling a `dict` method (`.get`) on a non-dict Python value raises
`AttributeError`; `asObj` exposes that as an `Except`. -/
def asObj : JValue → Except String (List (String × JValue))
  | .obj fs => .ok fs
  | _ => .error "AttributeError"

/-- The fixed ticker list of `parse_single_json` (both copies). -/
def trackedTickers : List String := ["OKLO", "RKLB"]

/-- The seven per-ticker fields read by `parse_single_json`. -/
def tickerFields : List String :=
  ["close", "pct_change", "streak", "confidence",
   "predicted_next_day_pct", "dip_onset_prob", "dip_exhaustion_prob"]

/-- The fixed benchmark list of `parse_single_json` (both copies). -/
def trackedBenchmarks : List String := ["SPY", "VIXY", "VIXM", "VIX"]

/-- The per-ticker loop of `parse_single_json`: for ticker `t`,
`ticker_data = data.get("tickers", {}).get(t, {})` followed by seven
`ticker_data.get(field)` reads.  `asObj` models the `AttributeError`
raised when the entry for `t` is present but not a dict. -/
def parseTickers (tobj : List (String × JValue)) :
    List String → Except String (List (String × JValue))
  | [] => .ok []
  | t :: rest => do
      let td ← asObj (pyGetD tobj t (.obj []))
      let cells := tickerFields.map (fun f => (t ++ "_" ++ f, pyGetN td f))
      let more ← parseTickers tobj rest
      .ok (cells ++ more)

/-- One benchmark cell of `parse_single_json`: a dict yields its
`close` entry, a bare scalar (`isinstance(x, (int, float))`, which in
Python includes `bool`) yields itself, anything else yields `None`. -/
def benchCell : JValue → JValue
  | .obj fs => pyGetN fs "close"
  | .num q => .num q
  | .bool b => .bool b
  | _ => .null

/-- The benchmark loop of `parse_single_json`:
`data.get("benchmarks", {}).get(b)` for each tracked benchmark. -/
def parseBenchmarks (bobj : List (String × JValue)) :
    List String → List (String × JValue)
  | [] => []
  | b :: rest => (b ++ "_close", benchCell (pyGetN bobj b)) :: parseBenchmarks bobj rest

/-- Function `parse_single_json` (identical in `prepare_data.py` and
`generate_historical_rnn_predictions.py`), applied to the already-loaded
JSON object: builds the flat row `{"date": data.get("date"), ...}` with
the fourteen ticker cells and four benchmark cells. -/
def parse_single_json (data : List (String × JValue)) :
    Except String (List (String × JValue)) := do
  let tobj ← asObj (pyGetD data "tickers" (.obj []))
  let tcells ← parseTickers tobj trackedTickers
  let bobj ← asObj (pyGetD data "benchmarks" (.obj []))
  .ok (("date", pyGetN data "date") :: (tcells ++ parseBenchmarks bobj trackedBenchmarks))

/-- The fixed column set of a Feature Row: the date, seven fields per
tracked ticker, one close per tracked benchmark. -/
def fixedColumns : List String :=
  "date" :: (trackedTickers.flatMap (fun t => tickerFields.map (fun f => t ++ "_" ++ f))
    ++ trackedBenchmarks.map (fun b => b ++ "_close"))

/-! ## Missing-value resolution (`df.ffill`, `df.bfill`, `df.fillna(0)`)

`prepare_data_subset` cleans the table with `df.ffill(inplace=True)`,
`df.bfill(inplace=True)`, `df.fillna(0, inplace=True)`;
`load_and_preprocess_data` in `train.py` does the same fills in the same
order.  Pandas applies each fill column-wise, so a column is a
`List (Option ℚ)` with `none` for a missing cell (NaN). -/

/-- Pandas forward fill on one column: a missing cell takes the most
recent earlier non-missing value (`carry`), if any. -/
def ffillCol (carry : Option ℚ) : List (Option ℚ) → List (Option ℚ)
  | [] => []
  | some v :: t => some v :: ffillCol (some v) t
  | none :: t => carry :: ffillCol carry t

/-- The nearest non-missing value at or after the head of the column. -/
def firstSome : List (Option ℚ) → Option ℚ
  | [] => none
  | some v :: _ => some v
  | none :: t => firstSome t

/-- Pandas backward fill on one column: a missing cell takes the nearest
later non-missing value, if any. -/
def bfillCol : List (Option ℚ) → List (Option ℚ)
  | [] => []
  | some v :: t => some v :: bfillCol t
  | none :: t => firstSome t :: bfillCol t

/-- Pandas `fillna(0)` on one column: every still-missing cell becomes 0. -/
def fillZeroCol (c : List (Option ℚ)) : List (Option ℚ) :=
  c.map (fun x => some (x.getD 0))

/-- The full per-column cleaning of `prepare_data_subset` /
`load_and_preprocess_data`: forward fill, then backward fill, then fill
the remainder with zero — in that order. -/
def cleanCol (c : List (Option ℚ)) : List (Option ℚ) :=
  fillZeroCol (bfillCol (ffillCol none c))

/-- A feature table as its list of columns (the date index is kept
separately by pandas and is never filled). -/
def cleanTable (cols : List (List (Option ℚ))) : List (List (Option ℚ)) :=
  cols.map cleanCol

/-! ## Sequence windowers (`create_sequences`, both variants) -/

/-- Function `create_sequences(data, target_col_index, timesteps)` from
`ml/scripts/train.py`: window `i` is rows `[i, i+timesteps)` and label
`i` is `data[i + timesteps, target_col_index]` — a single scalar.
`range(len(data) - timesteps)` is empty when `len(data) ≤ timesteps`,
which natural subtraction models exactly. -/
def createSequencesTrain (data : List (List ℚ)) (targetColIndex timesteps : ℕ) :
    List (List (List ℚ)) × List ℚ :=
  ((List.range (data.length - timesteps)).map
      (fun i => (data.drop i).take timesteps),
   (List.range (data.length - timesteps)).map
      (fun i => ((data.getD (i + timesteps) []).getD targetColIndex 0)))

/-- Function `create_sequences(data, timesteps=3)` from
`ml/scripts/generate_historical_rnn_predictions.py`: raises `ValueError`
when `len(data) < timesteps + 1`; otherwise window `i` is rows
`[i, i+timesteps)` and the label appended is `data[i + timesteps]` — the
whole row, with no target-column selection. -/
def createSequencesGen (data : List (List ℚ)) (timesteps : ℕ) :
    Except String (List (List (List ℚ)) × List (List ℚ)) :=
  if data.length < timesteps + 1 then
    .error "Not enough data points"
  else
    .ok ((List.range (data.length - timesteps)).map
           (fun i => (data.drop i).take timesteps),
         (List.range (data.length - timesteps)).map
           (fun i => data.getD (i + timesteps) []))

/-! ## Min-max scaler (`MinMaxScaler` with the default range `[0, 1]`)

`scaler.fit_transform(df)` records the minimum and maximum of each column and
maps `x ↦ (x − min) / (max − min)`; a zero range is replaced by 1
(the sklearn helper `_handle_zeros_in_scale`).  `scaler.inverse_transform` is the
inverse map `y ↦ y · (max − min) + min` with the same guarded range. -/

/-- Per-column statistics recorded by `MinMaxScaler.fit`. -/
structure MinMaxParams where
  dataMin : ℚ
  dataMax : ℚ

/-- Fit on one column (sklearn reduces with `np.nanmin` / `np.nanmax`;
columns are dense after cleaning, so plain fold-min/max). -/
def fitColumn (c : List ℚ) : MinMaxParams :=
  match c with
  | [] => ⟨0, 0⟩
  | x :: t => ⟨t.foldl min x, t.foldl max x⟩

/-- The guarded data range: sklearn replaces a zero range by 1 so the
scale factor is never a division by zero. -/
def scaleRange (p : MinMaxParams) : ℚ :=
  if p.dataMax - p.dataMin = 0 then 1 else p.dataMax - p.dataMin

/-- Transform of one column. -/
def transformColumn (p : MinMaxParams) (c : List ℚ) : List ℚ :=
  c.map (fun x => (x - p.dataMin) / scaleRange p)

/-- Inverse transform of one column. -/
def inverseColumn (p : MinMaxParams) (c : List ℚ) : List ℚ :=
  c.map (fun y => y * scaleRange p + p.dataMin)

/-- Fit-and-transform `scaler.fit_transform(df)` over the whole table (as columns):
the fitted per-column parameters together with the scaled table. -/
def fitTransformTable (cols : List (List ℚ)) :
    List MinMaxParams × List (List ℚ) :=
  (cols.map fitColumn, cols.map (fun c => transformColumn (fitColumn c) c))

/-- Inverse transform `scaler.inverse_transform` over the whole table. -/
def inverseTransformTable (ps : List MinMaxParams) (cols : List (List ℚ)) :
    List (List ℚ) :=
  List.zipWith inverseColumn ps cols

/-! ## Train/validation splits -/

/-- The split of `train_and_predict` in
`generate_historical_rnn_predictions.py`: with at least 5 windows,
`split_idx = int(len(X) * 0.8)` and the last windows `X[split_idx:]`
(with their labels) are held out as validation data; otherwise all
windows are training data and `validation_data = None`.  For list
lengths `n`, the float expression `int(n * 0.8)` equals `4 * n / 5` in
natural division (the IEEE product `n * 0.8` differs from `4n/5` by at
most a few ulps and truncation lands on `⌊4n/5⌋`). -/
def splitTrainVal (X : List (List (List ℚ))) (y : List (List ℚ)) :
    (List (List (List ℚ)) × List (List ℚ))
      × Option (List (List (List ℚ)) × List (List ℚ)) :=
  if 5 ≤ X.length then
    ((X.take (4 * X.length / 5), y.take (4 * X.length / 5)),
     some (X.drop (4 * X.length / 5), y.drop (4 * X.length / 5)))
  else
    ((X, y), none)

/-- The outcome of
`train_test_split(X, y, test_size=0.2, random_state=42)` in
`main` of `train.py`: sklearn computes `n_test = ceil(0.2 * n)` and
`n_train = n - n_test` and raises `ValueError` when either resulting
set would be empty (with a single window, `n_test = 1` leaves
`n_train = 0`); otherwise it holds out the `n_test` windows of a
shuffled split as the validation set.  For list lengths `n`,
`ceil(0.2 * n)` equals `(n + 4) / 5` in natural division.  On success
the sizes are returned as (train size, validation size). -/
def trainTestSplitSizes (n : ℕ) : Except String (ℕ × ℕ) :=
  if n - (n + 4) / 5 = 0 ∨ (n + 4) / 5 = 0 then
    .error "ValueError: the resulting train set will be empty"
  else
    .ok (n - (n + 4) / 5, (n + 4) / 5)

/-! ## Feature-table builders -/

/-- Named numeric columns of a dataframe. -/
abbrev Frame := List (String × List ℚ)

/-- The column names of a dataframe (`df.columns`). -/
def colNames (df : Frame) : List String := df.map Prod.fst

/-- The row count of a dataframe (all columns have this length). -/
def numRows (df : Frame) : ℕ :=
  match df with
  | [] => 0
  | c :: _ => c.2.length

/-- The state of the dataframe of the caller after `train_and_predict`:
unchanged when the target column exists, otherwise with a zero-filled
column of that name appended (`df[target_column_name] = 0`). -/
def trainAndPredictFrame (df : Frame) (targetColumnName : String) : Frame :=
  if targetColumnName ∈ colNames df then df
  else df ++ [(targetColumnName, List.replicate (numRows df) 0)]

/-! ## The progressive walk-forward loop (`main` of
`generate_historical_rnn_predictions.py`)

Source files are named `YYYY-MM-DD.json`; the loop sorts the names,
takes each index `i ≥ 1` in turn, trains on `all_files[:i]` and predicts
for the date of file `i`.  A date is modelled by a natural number, a file by
its date (the claims concern chronologically *date-named* histories, so
the `datetime.strptime` format check always passes and every listed file
exists).  `prepare_data_subset` then yields one table row per training
file, and `train_and_predict` returns a prediction exactly when
`create_sequences` succeeds on that table, i.e. when the table has at
least `TIMESTEPS + 1 = 4` rows — otherwise it returns `None` for both
tickers, `predictions` stays empty, and no record is written. -/

/-- Chronological sort `sorted(files)` / `all_files.sort()`: the stable
Python sort on the
modelled date names. -/
def sortDates (files : List ℕ) : List ℕ :=
  files.insertionSort (· ≤ ·)

/-- Whether `train_and_predict` returns a prediction (not `None`) for a
training table with the given number of rows: exactly when the
`create_sequences` call inside it does not raise, i.e. the table has at
least `TIMESTEPS + 1 = 4` rows. -/
def trainAndPredictEmits (tableRows : ℕ) : Bool :=
  3 + 1 ≤ tableRows

/-- One iteration of the loop for target index `i` (`i ≥ 1`): skip when
fewer than 3 training files exist; otherwise build the table from
`all_files[:i]` and run `train_and_predict` for both tickers — a record
`(target date, training_data_sources)` is written exactly when a
prediction came back, with `training_data_sources = sorted(files_used)`
(`get_training_sources`). -/
def emitAt (sorted : List ℕ) (i : ℕ) : Option (ℕ × List ℕ) :=
  if (sorted.take i).length < 3 then none
  else if trainAndPredictEmits (sorted.take i).length then
    some (sorted.getD i 0, sortDates (sorted.take i))
  else none

/-- The Prediction Records written by a full progressive run over the
given date-named files: `for i in range(1, len(all_files))` over the
sorted names. -/
def progressiveRecords (files : List ℕ) : List (ℕ × List ℕ) :=
  ((List.range (sortDates files).length).drop 1).filterMap (emitAt (sortDates files))

/-! ## Theorems -/

/-- Round trip on one column: the inverse map undoes the scaling map,
because the guarded range is never zero. -/
theorem inverseColumn_transformColumn (p : MinMaxParams) (c : List ℚ) :
    inverseColumn p (transformColumn p c) = c := by
  have hr : scaleRange p ≠ 0 := by
    unfold scaleRange; split
    · exact one_ne_zero
    · assumption
  unfold inverseColumn transformColumn
  rw [List.map_map]
  have hx : ∀ x : ℚ, (x - p.dataMin) / scaleRange p * scaleRange p + p.dataMin = x := by
    intro x; field_simp
  simp [Function.comp_def, hx]

/-- C9: for every feature table, fitting the min-max scaler on the
table, transforming it, and inverse-transforming the result reproduces
the original table exactly over exact rational arithmetic. -/
theorem scaler_roundtrip_exact (cols : List (List ℚ)) :
    inverseTransformTable (fitTransformTable cols).1 (fitTransformTable cols).2 = cols := by
  unfold fitTransformTable inverseTransformTable
  induction cols with
  | nil => rfl
  | cons c t ih =>
    simp only [List.map_cons, List.zipWith_cons_cons]
    rw [inverseColumn_transformColumn, ih]

/-- C5: a table of length N with window size T yields exactly
max(0, N − T) windows — `createSequencesTrain` returns `N - T` windows
unconditionally (natural subtraction is the needed `max`), and
`createSequencesGen` succeeds exactly when `N ≥ T + 1`, in which case it
also returns `N - T` windows; a table with fewer than `T + 1` rows
yields zero windows from the train.py windower and a raised error
(hard precondition failure) from the progressive windower. -/
theorem windower_count_and_precondition :
    ∀ (data : List (List ℚ)) (targetColIndex timesteps : ℕ),
      (createSequencesTrain data targetColIndex timesteps).1.length
          = data.length - timesteps
      ∧ ((createSequencesGen data timesteps).isOk = true ↔
          timesteps + 1 ≤ data.length)
      ∧ (∀ X y, createSequencesGen data timesteps = .ok (X, y) →
          X.length = data.length - timesteps)
      ∧ (data.length < timesteps + 1 →
          (createSequencesTrain data targetColIndex timesteps).1.length = 0) := by
  intro data tIdx T
  refine ⟨?_, ?_, ?_, ?_⟩
  · simp [createSequencesTrain]
  · unfold createSequencesGen
    split
    · next h =>
      have hnot : ¬ (T + 1 ≤ data.length) := by omega
      simp [Except.isOk, Except.toBool, hnot]
    · next h =>
      have hle : T + 1 ≤ data.length := by omega
      simp [Except.isOk, Except.toBool, hle]
  · intro X y h
    unfold createSequencesGen at h
    split at h
    · exact Except.noConfusion h
    · next hn =>
      injection h with h2
      rw [Prod.mk.injEq] at h2
      obtain ⟨hX, hY⟩ := h2
      subst hX
      simp
  · intro h
    simp [createSequencesTrain]
    omega

/-- C5 witness: at a concrete 4-row table with T = 3 the windower yields
one window, and at a 1-row table it yields zero windows. -/
theorem windower_count_and_precondition_witness :
    (createSequencesTrain [[(1:ℚ)],[2],[3],[4]] 0 3).1.length = 1
    ∧ (createSequencesGen [[(1:ℚ)],[2],[3],[4]] 3).isOk = true
    ∧ [[[(1:ℚ)],[2],[3]]].length = 1
    ∧ (createSequencesTrain [[(1:ℚ)]] 0 3).1.length = 0 :=
  ⟨(windower_count_and_precondition [[(1:ℚ)],[2],[3],[4]] 0 3).1,
   (windower_count_and_precondition [[(1:ℚ)],[2],[3],[4]] 0 3).2.1.mpr (by decide),
   (windower_count_and_precondition [[(1:ℚ)],[2],[3],[4]] 0 3).2.2.1
      [[[(1:ℚ)],[2],[3]]] [[(4:ℚ)]] rfl,
   (windower_count_and_precondition [[(1:ℚ)]] 0 3).2.2.2 (by decide)⟩

/-- C2: evaluated at a concrete scaled table of four rows and two
columns with target column 1, the progressive windower
(`create_sequences` of `generate_historical_rnn_predictions.py`) labels
the single window with the entire row `[6, 7]` — it takes no target
column at all — whereas the train.py windower labels it with the scalar
`7` at the target column, which is what the specification states. -/
theorem gen_create_sequences_label_is_whole_row :
    createSequencesGen [[(0:ℚ),1],[2,3],[4,5],[6,7]] 3 =
      .ok ([[[(0:ℚ),1],[2,3],[4,5]]], [[(6:ℚ),7]])
    ∧ createSequencesTrain [[(0:ℚ),1],[2,3],[4,5],[6,7]] 1 3 =
      ([[[(0:ℚ),1],[2,3],[4,5]]], [(7:ℚ)]) :=
  ⟨rfl, rfl⟩

/-- Forward fill with a present carry leaves no missing cell. -/
theorem ffillCol_some_carry :
    ∀ (c : List (Option ℚ)) (v : ℚ), ∀ x ∈ ffillCol (some v) c, x.isSome = true := by
  intro c
  induction c with
  | nil => intro v x hx; simp [ffillCol] at hx
  | cons a t ih =>
    intro v x hx
    cases a with
    | some w =>
      simp only [ffillCol, List.mem_cons] at hx
      rcases hx with rfl | hx
      · rfl
      · exact ih w x hx
    | none =>
      simp only [ffillCol, List.mem_cons] at hx
      rcases hx with rfl | hx
      · rfl
      · exact ih v x hx

/-- After a forward fill started with no carry, a column that has any
present value has a present first-later value for every leading gap. -/
theorem firstSome_ffill_isSome :
    ∀ c : List (Option ℚ), c.any Option.isSome = true →
      (firstSome (ffillCol none c)).isSome = true := by
  intro c
  induction c with
  | nil => intro h; simp at h
  | cons a t ih =>
    intro h
    cases a with
    | some w => simp [ffillCol, firstSome]
    | none =>
      simp only [List.any_cons, Option.isSome_none, Bool.false_or] at h
      simp only [ffillCol, firstSome]
      exact ih h

/-- Forward fill followed by backward fill leaves no missing cell as
soon as the carry is present or some cell of the column is present. -/
theorem bfill_ffill_dense :
    ∀ (c : List (Option ℚ)) (carry : Option ℚ),
      (carry.isSome = true ∨ c.any Option.isSome = true) →
      ∀ x ∈ bfillCol (ffillCol carry c), x.isSome = true := by
  intro c
  induction c with
  | nil => intro carry _ x hx; simp [ffillCol, bfillCol] at hx
  | cons a t ih =>
    intro carry h x hx
    cases a with
    | some w =>
      simp only [ffillCol, bfillCol, List.mem_cons] at hx
      rcases hx with rfl | hx
      · rfl
      · exact ih (some w) (Or.inl rfl) x hx
    | none =>
      cases carry with
      | some v =>
        simp only [ffillCol, bfillCol, List.mem_cons] at hx
        rcases hx with rfl | hx
        · rfl
        · exact ih (some v) (Or.inl rfl) x hx
      | none =>
        have ht : t.any Option.isSome = true := by
          rcases h with h | h
          · simp at h
          · simpa using h
        simp only [ffillCol, bfillCol, List.mem_cons] at hx
        rcases hx with rfl | hx
        · exact firstSome_ffill_isSome t ht
        · exact ih none (Or.inr ht) x hx

/-- C3: missing-value resolution applies forward fill, then backward
fill, then zero fill, column-wise and in that order (the definition of
`cleanCol`), after which no missing cell remains in any column; moreover
the zero-fill step is only ever needed for an entirely absent column —
any column with at least one present value is already dense after the
forward and backward fills. -/
theorem missing_value_resolution_dense :
    ∀ cols : List (List (Option ℚ)),
      (∀ c ∈ cleanTable cols, ∀ x ∈ c, x.isSome = true)
      ∧ (∀ c ∈ cols, c.any Option.isSome = true →
          ∀ x ∈ bfillCol (ffillCol none c), x.isSome = true) := by
  intro cols
  constructor
  · intro c hc x hx
    simp only [cleanTable, List.mem_map] at hc
    obtain ⟨c0, _, rfl⟩ := hc
    simp only [cleanCol, fillZeroCol, List.mem_map] at hx
    obtain ⟨y, _, rfl⟩ := hx
    rfl
  · intro c _ h
    exact bfill_ffill_dense c none (Or.inr h)

/-- C3 witness: on the concrete column `[none, some 1]` the clean step
yields the dense column `[some 1, some 1]`, and the theorem gives
density after the two fills alone. -/
theorem missing_value_resolution_dense_witness :
    cleanCol [none, some (1:ℚ)] = [some 1, some 1]
    ∧ Option.isSome (some (1:ℚ)) = true :=
  ⟨rfl,
   (missing_value_resolution_dense [[none, some 1]]).2 [none, some 1]
     (by decide) (by decide) (some 1) (by decide)⟩

/-- C4 counterexample: with 4 windows (fewer than 5), the split used by
`main` of `train.py` succeeds and still holds out a non-empty
validation set (one window, chosen by a shuffled `train_test_split`),
contradicting the claim that fewer than 5 windows means training on all
windows with no validation set. -/
theorem train_py_split_holds_out_below_five :
    4 < 5 ∧ trainTestSplitSizes 4 = .ok (3, 1) ∧ (1 : ℕ) ≠ 0 :=
  ⟨by decide, rfl, by decide⟩

/-- C4 (amended): the progressive trainer `train_and_predict` behaves as
claimed — with at least 5 windows it holds out the last
`n − ⌊0.8·n⌋` windows (a non-empty positional tail) for validation, and
with fewer than 5 windows it trains on all windows with no validation
set — whereas the trainer of `train.py` never trains without a
validation set: for two or more windows its `train_test_split` holds
out `⌈0.2·n⌉ ≥ 1` windows chosen at random, even below 5 windows, and
with a single window it raises `ValueError` (the train set would be
empty) instead of training on all windows. -/
theorem train_validation_split_behavior :
    ∀ (X : List (List (List ℚ))) (y : List (List ℚ)),
      (5 ≤ X.length →
        splitTrainVal X y =
          ((X.take (4 * X.length / 5), y.take (4 * X.length / 5)),
           some (X.drop (4 * X.length / 5), y.drop (4 * X.length / 5)))
        ∧ (X.drop (4 * X.length / 5)).length = X.length - 4 * X.length / 5
        ∧ X.length - 4 * X.length / 5 ≠ 0)
      ∧ (X.length < 5 → splitTrainVal X y = ((X, y), none))
      ∧ (∀ n, 2 ≤ n →
          trainTestSplitSizes n = .ok (n - (n + 4) / 5, (n + 4) / 5)
          ∧ (n + 4) / 5 ≠ 0)
      ∧ trainTestSplitSizes 1
          = .error "ValueError: the resulting train set will be empty" := by
  intro X y
  refine ⟨?_, ?_, ?_, ?_⟩
  · intro h
    refine ⟨?_, ?_, ?_⟩
    · unfold splitTrainVal
      rw [if_pos h]
    · simp [List.length_drop]
    · omega
  · intro h
    unfold splitTrainVal
    rw [if_neg (by omega)]
  · intro n hn
    constructor
    · unfold trainTestSplitSizes
      rw [if_neg (by omega)]
    · omega
  · rfl

/-- C4 witness: with 5 concrete windows the progressive split holds out
the last one; with 1 window it has no validation data; the train.py
split at n = 2 succeeds and still holds out a window. -/
theorem train_validation_split_behavior_witness :
    (splitTrainVal [[[(1:ℚ)]],[[2]],[[3]],[[4]],[[5]]] [[1],[2],[3],[4],[5]]).2
        = some ([[[(5:ℚ)]]], [[(5:ℚ)]])
    ∧ (splitTrainVal [[[(1:ℚ)]]] [[(1:ℚ)]]).2 = none
    ∧ trainTestSplitSizes 2 = .ok (1, 1) := by
  refine ⟨?_, ?_, ?_⟩
  · rw [((train_validation_split_behavior
      [[[(1:ℚ)]],[[2]],[[3]],[[4]],[[5]]] [[1],[2],[3],[4],[5]]).1 (by decide)).1]
    rfl
  · rw [(train_validation_split_behavior [[[(1:ℚ)]]] [[(1:ℚ)]]).2.1 (by decide)]
  · exact ((train_validation_split_behavior [] []).2.2.1 2 (by decide)).1

/-- C10: when the requested target column is already present,
`train_and_predict` leaves the table of its caller unchanged; when it is
absent, the call appends a zero-filled column of that name in place, and
the appended column is visible to any subsequent call receiving the same
table. -/
theorem train_and_predict_frame_effect :
    ∀ (df : Frame) (target : String),
      (target ∈ colNames df → trainAndPredictFrame df target = df)
      ∧ (target ∉ colNames df →
          trainAndPredictFrame df target
              = df ++ [(target, List.replicate (numRows df) 0)]
          ∧ target ∈ colNames (trainAndPredictFrame df target)) := by
  intro df target
  constructor
  · intro h
    unfold trainAndPredictFrame
    rw [if_pos h]
  · intro h
    have he : trainAndPredictFrame df target
        = df ++ [(target, List.replicate (numRows df) 0)] := by
      unfold trainAndPredictFrame
      rw [if_neg h]
    refine ⟨he, ?_⟩
    rw [he]
    unfold colNames
    rw [List.map_append]
    exact List.mem_append.mpr (Or.inr (by simp))

/-- C10 witness: on a concrete one-column table, a present target leaves
the table unchanged and an absent target appends a zero column that a
subsequent call observes. -/
theorem train_and_predict_frame_effect_witness :
    trainAndPredictFrame [("OKLO_close", [1, 2])] "OKLO_close"
        = [("OKLO_close", [1, 2])]
    ∧ trainAndPredictFrame [("OKLO_close", [1, 2])] "OKLO_predicted_next_day_pct"
        = [("OKLO_close", [1, 2]), ("OKLO_predicted_next_day_pct", [0, 0])]
    ∧ "OKLO_predicted_next_day_pct"
        ∈ colNames (trainAndPredictFrame [("OKLO_close", [1, 2])]
            "OKLO_predicted_next_day_pct") := by
  refine ⟨?_, ?_, ?_⟩
  · exact (train_and_predict_frame_effect [("OKLO_close", [1, 2])] "OKLO_close").1
      (by decide)
  · rw [((train_and_predict_frame_effect [("OKLO_close", [(1:ℚ), 2])]
      "OKLO_predicted_next_day_pct").2 (by decide)).1]
    rfl
  · exact ((train_and_predict_frame_effect [("OKLO_close", [(1:ℚ), 2])]
      "OKLO_predicted_next_day_pct").2 (by decide)).2

/-- Check that a key is absent or maps to a dict — the only shapes under
which the Python `.get` chain of the parser can proceed past that key
(a present non-dict value raises `AttributeError` at the next `.get`). -/
def objOrAbsent (fs : List (String × JValue)) (k : String) : Bool :=
  match jlookup fs k with
  | none => true
  | some (.obj _) => true
  | _ => false

/-- A record whose optional parts are merely missing or are dicts:
anything may be absent, but whatever of `tickers`, `benchmarks` and the
per-ticker entries is present must be a dict.  Every record that only
lacks optional fields satisfies this. -/
def wellShapedRecord (data : List (String × JValue)) : Bool :=
  objOrAbsent data "tickers" && objOrAbsent data "benchmarks" &&
    (match jlookup data "tickers" with
     | some (.obj tfs) => trackedTickers.all (fun t => objOrAbsent tfs t)
     | _ => true)

/-- When a key is absent or maps to a dict, the `data.get(k, {})`
followed by treating the result as a dict succeeds, with the empty dict
for an absent key and the stored dict otherwise. -/
theorem asObj_pyGetD_cases (fs : List (String × JValue)) (k : String)
    (h : objOrAbsent fs k = true) :
    ∃ o, asObj (pyGetD fs k (.obj [])) = .ok o
      ∧ ((jlookup fs k = none ∧ o = []) ∨ jlookup fs k = some (.obj o)) := by
  unfold objOrAbsent at h
  unfold pyGetD
  cases hjk : jlookup fs k with
  | none => exact ⟨[], rfl, Or.inl ⟨rfl, rfl⟩⟩
  | some v =>
    rw [hjk] at h
    cases v with
    | obj o => exact ⟨o, rfl, Or.inr rfl⟩
    | null => exact Bool.noConfusion h
    | num q => exact Bool.noConfusion h
    | bool b => exact Bool.noConfusion h
    | str s => exact Bool.noConfusion h
    | arr a => exact Bool.noConfusion h

/-- The ticker loop succeeds whenever every tracked ticker entry is
absent or a dict. -/
theorem parseTickers_ok :
    ∀ (ts : List String) (tobj : List (String × JValue)),
      (∀ t ∈ ts, objOrAbsent tobj t = true) →
      ∃ cells, parseTickers tobj ts = .ok cells := by
  intro ts
  induction ts with
  | nil => intro tobj _; exact ⟨[], rfl⟩
  | cons t rest ih =>
    intro tobj h
    obtain ⟨td, htd, _⟩ := asObj_pyGetD_cases tobj t (h t (List.mem_cons_self t rest))
    obtain ⟨more, hmore⟩ := ih tobj (fun u hu => h u (List.mem_cons_of_mem t hu))
    refine ⟨(tickerFields.map (fun f => (t ++ "_" ++ f, pyGetN td f))) ++ more, ?_⟩
    simp only [parseTickers, bind, Except.bind, htd, hmore]

/-- The keys contributed by the ticker loop are exactly the seven field
names per listed ticker, in order, whatever the cell values are. -/
theorem parseTickers_keys :
    ∀ (ts : List String) (tobj cells : List (String × JValue)),
      parseTickers tobj ts = .ok cells →
      cells.map Prod.fst
        = ts.flatMap (fun t => tickerFields.map (fun f => t ++ "_" ++ f)) := by
  intro ts
  induction ts with
  | nil =>
    intro tobj cells h
    injection h with h
    subst h
    rfl
  | cons t rest ih =>
    intro tobj cells h
    cases htd : asObj (pyGetD tobj t (.obj [])) with
    | error e =>
      simp only [parseTickers, bind, Except.bind, htd] at h
      exact Except.noConfusion h
    | ok td =>
      cases hmore : parseTickers tobj rest with
      | error e =>
        simp only [parseTickers, bind, Except.bind, htd, hmore] at h
        exact Except.noConfusion h
      | ok more =>
        simp only [parseTickers, bind, Except.bind, htd, hmore] at h
        injection h with h
        subst h
        simp only [List.map_append, List.flatMap_cons, ih tobj more hmore,
          List.map_map]
        rfl

/-- The keys contributed by the benchmark loop are exactly the close
column per listed benchmark, whatever the cell values are. -/
theorem parseBenchmarks_keys :
    ∀ (bs : List String) (bobj : List (String × JValue)),
      (parseBenchmarks bobj bs).map Prod.fst = bs.map (fun b => b ++ "_close") := by
  intro bs
  induction bs with
  | nil => intro bobj; rfl
  | cons b rest ih =>
    intro bobj
    simp only [parseBenchmarks, List.map_cons, ih]

/-- C7 counterexample: the empty record lacks a date field entirely, yet
the parser succeeds (no `MalformedSnapshotError` or any other failure is
raised), producing a row whose date cell is the missing-value marker —
so the parser does not fail when and only when the date is missing. -/
theorem parser_no_failure_without_date :
    jlookup [] "date" = none ∧ (parse_single_json []).isOk = true :=
  ⟨rfl, rfl⟩

/-- C7 (amended): the Snapshot Parser never fails on a record whose
optional fields are merely missing — including a missing date field: it
succeeds and emits `data.get("date")` (the missing-value marker when the
date is absent) as the date cell, rather than raising any error. -/
theorem parser_total_on_missing_fields :
    ∀ data : List (String × JValue), wellShapedRecord data = true →
      (parse_single_json data).toOption.map (fun r => jlookup r "date")
        = some (some (pyGetN data "date")) := by
  intro data h
  unfold wellShapedRecord at h
  rw [Bool.and_eq_true, Bool.and_eq_true] at h
  obtain ⟨⟨h1, h2⟩, h3⟩ := h
  obtain ⟨tobj, htobj, hcase⟩ := asObj_pyGetD_cases data "tickers" h1
  obtain ⟨bobj, hbobj, _⟩ := asObj_pyGetD_cases data "benchmarks" h2
  have htick : ∀ t ∈ trackedTickers, objOrAbsent tobj t = true := by
    rcases hcase with ⟨hnone, rfl⟩ | hobj
    · intro t _
      rfl
    · simp only [hobj] at h3
      intro t ht
      exact List.all_eq_true.mp h3 t ht
  obtain ⟨cells, hcells⟩ := parseTickers_ok trackedTickers tobj htick
  simp only [parse_single_json, bind, Except.bind, htobj, hcells, hbobj]
  simp [Except.toOption, jlookup]

/-- C7 witness: the empty record is well shaped and parses to a row with
the missing-value marker as its date. -/
theorem parser_total_on_missing_fields_witness :
    wellShapedRecord [] = true
    ∧ (parse_single_json []).toOption.map (fun r => jlookup r "date")
        = some (some JValue.null) :=
  ⟨rfl, parser_total_on_missing_fields [] rfl⟩

/-- Check for a benchmark value that is neither a dict nor a Python
scalar: `None`, a string, or an array — exactly the shapes the parser
maps to the missing-value marker. -/
def benchIsOther : JValue → Bool
  | .null => true
  | .str _ => true
  | .arr _ => true
  | _ => false

/-- A non-dict, non-scalar benchmark value yields the missing-value
marker. -/
theorem benchCell_eq_null_of_other (v : JValue) (h : benchIsOther v = true) :
    benchCell v = JValue.null := by
  cases v <;> first | rfl | exact Bool.noConfusion h

/-- The explicit shape of a successfully parsed row: the date cell, the
seven cells for each of the two tracked tickers (with the per-ticker
dicts `td1`, `td2` obtained from the record), and the four benchmark
cells read from the benchmarks dict `bobj`. -/
def builtRow (dv : JValue) (td1 td2 bobj : List (String × JValue)) :
    List (String × JValue) :=
  ("date", dv) ::
    ((tickerFields.map (fun f => ("OKLO" ++ "_" ++ f, pyGetN td1 f)) ++
      (tickerFields.map (fun f => ("RKLB" ++ "_" ++ f, pyGetN td2 f)) ++ [])) ++
      parseBenchmarks bobj trackedBenchmarks)

/-- A successful parse produces exactly the `builtRow` shape. -/
theorem parse_single_json_shape :
    ∀ (data tobj td1 td2 bobj r : List (String × JValue)),
      asObj (pyGetD data "tickers" (.obj [])) = .ok tobj →
      asObj (pyGetD tobj "OKLO" (.obj [])) = .ok td1 →
      asObj (pyGetD tobj "RKLB" (.obj [])) = .ok td2 →
      asObj (pyGetD data "benchmarks" (.obj [])) = .ok bobj →
      parse_single_json data = .ok r →
      r = builtRow (pyGetN data "date") td1 td2 bobj := by
  intro data tobj td1 td2 bobj r htobj h1 h2 hbobj h
  have hcells : parseTickers tobj trackedTickers = .ok
      ((tickerFields.map (fun f => ("OKLO" ++ "_" ++ f, pyGetN td1 f))) ++
       ((tickerFields.map (fun f => ("RKLB" ++ "_" ++ f, pyGetN td2 f))) ++ [])) := by
    simp only [trackedTickers, parseTickers, bind, Except.bind, h1, h2]
  simp only [parse_single_json, bind, Except.bind, htobj, hcells, hbobj] at h
  injection h with h
  exact h.symm

/-- The key set of a built row is the fixed column set. -/
theorem builtRow_keys (dv : JValue) (td1 td2 bobj : List (String × JValue)) :
    (builtRow dv td1 td2 bobj).map Prod.fst = fixedColumns := by
  simp [builtRow, fixedColumns, tickerFields, trackedTickers, trackedBenchmarks,
    parseBenchmarks]

/-- Looking up a ticker cell of a built row reads the corresponding
field of that ticker dict (the missing-value marker when absent). -/
theorem builtRow_ticker_lookup (dv : JValue) (td1 td2 bobj : List (String × JValue)) :
    ∀ t ∈ trackedTickers, ∀ f ∈ tickerFields,
      jlookup (builtRow dv td1 td2 bobj) (t ++ "_" ++ f)
        = some (pyGetN (if t = "OKLO" then td1 else td2) f) := by
  intro t ht f hf
  have ht2 : t = "OKLO" ∨ t = "RKLB" := by simpa [trackedTickers] using ht
  have hf2 : f = "close" ∨ f = "pct_change" ∨ f = "streak" ∨ f = "confidence" ∨
      f = "predicted_next_day_pct" ∨ f = "dip_onset_prob" ∨ f = "dip_exhaustion_prob" := by
    simpa [tickerFields] using hf
  rcases ht2 with rfl | rfl <;>
    rcases hf2 with rfl | rfl | rfl | rfl | rfl | rfl | rfl <;>
      simp [builtRow, tickerFields, trackedBenchmarks, parseBenchmarks, jlookup]

/-- Looking up a benchmark cell of a built row reads that benchmark from
the benchmarks dict through the scalar-or-dict case analysis. -/
theorem builtRow_bench_lookup (dv : JValue) (td1 td2 bobj : List (String × JValue)) :
    ∀ b ∈ trackedBenchmarks,
      jlookup (builtRow dv td1 td2 bobj) (b ++ "_close")
        = some (benchCell (pyGetN bobj b)) := by
  intro b hb
  have hb2 : b = "SPY" ∨ b = "VIXY" ∨ b = "VIXM" ∨ b = "VIX" := by
    simpa [trackedBenchmarks] using hb
  rcases hb2 with rfl | rfl | rfl | rfl <;>
    simp [builtRow, tickerFields, trackedBenchmarks, parseBenchmarks, jlookup]

/-- C6: whenever the parser succeeds on a record, the output row has
exactly the fixed column set — the date, seven fields per tracked
ticker, one close per tracked benchmark — regardless of which optional
sub-fields were present; each ticker cell is the `.get` of that field
from the ticker dict, so a missing field yields the missing-value
marker; and a benchmark cell is the close field when the benchmark value
is a dict, the value itself when it is a bare scalar (Python counts
booleans as ints), and the missing-value marker otherwise. -/
theorem parser_fixed_columns_and_benchmarks :
    ∀ (data r : List (String × JValue)),
      parse_single_json data = .ok r →
      r.map Prod.fst = fixedColumns
      ∧ (∀ tobj td, asObj (pyGetD data "tickers" (.obj [])) = .ok tobj →
          ∀ t ∈ trackedTickers, asObj (pyGetD tobj t (.obj [])) = .ok td →
          ∀ f ∈ tickerFields, jlookup r (t ++ "_" ++ f) = some (pyGetN td f))
      ∧ (∀ bobj, asObj (pyGetD data "benchmarks" (.obj [])) = .ok bobj →
          ∀ b ∈ trackedBenchmarks,
          (∀ fs, pyGetN bobj b = .obj fs →
            jlookup r (b ++ "_close") = some (pyGetN fs "close"))
          ∧ (∀ q, pyGetN bobj b = .num q →
            jlookup r (b ++ "_close") = some (.num q))
          ∧ (∀ x, pyGetN bobj b = .bool x →
            jlookup r (b ++ "_close") = some (.bool x))
          ∧ (benchIsOther (pyGetN bobj b) = true →
            jlookup r (b ++ "_close") = some JValue.null)) := by
  intro data r h
  cases htobj : asObj (pyGetD data "tickers" (.obj [])) with
  | error e =>
    simp only [parse_single_json, bind, Except.bind, htobj] at h
    exact Except.noConfusion h
  | ok tobj =>
  cases hcells : parseTickers tobj trackedTickers with
  | error e =>
    simp only [parse_single_json, bind, Except.bind, htobj, hcells] at h
    exact Except.noConfusion h
  | ok tcells =>
  cases hbobj : asObj (pyGetD data "benchmarks" (.obj [])) with
  | error e =>
    simp only [parse_single_json, bind, Except.bind, htobj, hcells, hbobj] at h
    exact Except.noConfusion h
  | ok bobj =>
  cases h1 : asObj (pyGetD tobj "OKLO" (.obj [])) with
  | error e =>
    simp only [trackedTickers, parseTickers, bind, Except.bind, h1] at hcells
    exact Except.noConfusion hcells
  | ok td1 =>
  cases h2 : asObj (pyGetD tobj "RKLB" (.obj [])) with
  | error e =>
    simp only [trackedTickers, parseTickers, bind, Except.bind, h1, h2] at hcells
    exact Except.noConfusion hcells
  | ok td2 =>
  have hshape := parse_single_json_shape data tobj td1 td2 bobj r htobj h1 h2 hbobj h
  subst hshape
  refine ⟨builtRow_keys _ _ _ _, ?_, ?_⟩
  · intro tobj2 td htobj2 t ht htd f hf
    injection htobj2 with he
    subst he
    have hlk := builtRow_ticker_lookup (pyGetN data "date") td1 td2 bobj t ht f hf
    have ht2 : t = "OKLO" ∨ t = "RKLB" := by simpa [trackedTickers] using ht
    rcases ht2 with rfl | rfl
    · rw [h1] at htd
      injection htd with he2
      subst he2
      simpa using hlk
    · rw [h2] at htd
      injection htd with he2
      subst he2
      simpa using hlk
  · intro bobj2 hbobj2 b hb
    injection hbobj2 with he
    subst he
    have hcell := builtRow_bench_lookup (pyGetN data "date") td1 td2 bobj b hb
    refine ⟨?_, ?_, ?_, ?_⟩
    · intro fs hfs
      rw [hcell, hfs]
      rfl
    · intro q hq
      rw [hcell, hq]
      rfl
    · intro x hx
      rw [hcell, hx]
      rfl
    · intro ho
      rw [hcell, benchCell_eq_null_of_other _ ho]

/-- A concrete snapshot record used by the C6 witness: a date, a ticker
dict for OKLO carrying only a close, no RKLB entry, a scalar SPY
benchmark and a dict VIX benchmark. -/
def sampleSnapshot : List (String × JValue) :=
  [("date", .str "2025-01-02"),
   ("tickers", .obj [("OKLO", .obj [("close", .num 10)])]),
   ("benchmarks", .obj [("SPY", .num 5), ("VIX", .obj [("close", .num 16)])])]

/-- The parsed row of the sample snapshot. -/
def sampleRow : List (String × JValue) :=
  builtRow (.str "2025-01-02") [("close", .num 10)] []
    [("SPY", .num 5), ("VIX", .obj [("close", .num 16)])]

/-- C6 witness: on the sample snapshot the parser succeeds, its row has
the fixed column set, a missing ticker field reads as the missing-value
marker, a scalar benchmark reads as itself, and a dict benchmark reads
its close field. -/
theorem parser_fixed_columns_witness :
    sampleRow.map Prod.fst = fixedColumns
    ∧ jlookup sampleRow ("OKLO" ++ "_" ++ "pct_change") = some JValue.null
    ∧ jlookup sampleRow ("SPY" ++ "_close") = some (JValue.num 5)
    ∧ jlookup sampleRow ("VIX" ++ "_close") = some (JValue.num 16) := by
  have h := parser_fixed_columns_and_benchmarks sampleSnapshot sampleRow rfl
  refine ⟨h.1, ?_, ?_, ?_⟩
  · exact h.2.1 [("OKLO", .obj [("close", .num 10)])] [("close", .num 10)] rfl
      "OKLO" (by decide) rfl "pct_change" (by decide)
  · exact (h.2.2 [("SPY", .num 5), ("VIX", .obj [("close", .num 16)])] rfl
      "SPY" (by decide)).2.1 5 rfl
  · exact (h.2.2 [("SPY", .num 5), ("VIX", .obj [("close", .num 16)])] rfl
      "VIX" (by decide)).1 [("close", .num 16)] rfl

/-- In a strictly sorted list, the elements strictly below the element
at position `i` are exactly the first `i` elements. -/
theorem sorted_filter_lt :
    ∀ (l : List ℕ), l.Sorted (· < ·) → ∀ i, i < l.length →
      l.filter (fun d => d < l.getD i 0) = l.take i := by
  intro l
  induction l with
  | nil =>
    intro _ i hi
    simp at hi
  | cons a t ih =>
    intro hs i hi
    rcases List.sorted_cons.mp hs with ⟨ha, hst⟩
    cases i with
    | zero =>
      simp only [List.getD_cons_zero, List.take_zero]
      rw [List.filter_cons_of_neg (by simp)]
      rw [List.filter_eq_nil_iff]
      intro x hx
      have := ha x hx
      simp
      omega
    | succ j =>
      have hj : j < t.length := by
        simpa using hi
      simp only [List.getD_cons_succ, List.take_succ_cons]
      have hmem : t.getD j 0 ∈ t := by
        rw [List.getD_eq_getElem t 0 hj]
        exact List.getElem_mem hj
      have hlt : a < t.getD j 0 := ha _ hmem
      rw [List.filter_cons]
      rw [if_pos (decide_eq_true hlt : decide (a < t.getD j 0) = true)]
      rw [ih hst j hj]

/-- C1 counterexample: over the concrete 10-day chronologically named
history 0..9 with T = 3, the progressive run emits 6 Prediction
Records, not 7 — the 4th day is also skipped, because its training
prefix has only 3 rows, fewer than the T + 1 rows a window needs, so
`train_and_predict` returns no prediction for it. -/
theorem progressive_ten_day_count_not_seven :
    (progressiveRecords [0, 1, 2, 3, 4, 5, 6, 7, 8, 9]).length = 6
    ∧ (progressiveRecords [0, 1, 2, 3, 4, 5, 6, 7, 8, 9]).length ≠ 7 := by
  decide

/-- C1 (amended): a progressive run over a 10-day strictly
chronologically named history emits no Prediction Record for the first
4 days and emits exactly 6 Prediction Records — one per day from day 5
on — and every emitted record lists as its training data sources
exactly the source dates strictly before its target date. -/
theorem progressive_run_ten_day_emissions :
    ∀ files : List ℕ, files.length = 10 → files.Sorted (· < ·) →
      (progressiveRecords files).length = 6
      ∧ (progressiveRecords files).map Prod.fst = files.drop 4
      ∧ ∀ rec ∈ progressiveRecords files,
          rec.2 = files.filter (fun d => d < rec.1) := by
  intro files hlen hsort
  have hle : files.Sorted (· ≤ ·) := hsort.imp (fun h => le_of_lt h)
  have hid : sortDates files = files := List.Sorted.insertionSort_eq hle
  have htake : ∀ n, sortDates (files.take n) = files.take n := fun n =>
    List.Sorted.insertionSort_eq (List.Pairwise.sublist (List.take_sublist n files) hle)
  have hnone : ∀ i, 1 ≤ i → i ≤ 3 → emitAt files i = none := by
    intro i h1 h3
    unfold emitAt
    rw [List.length_take, hlen]
    have hmin : min i 10 = i := by omega
    rw [hmin]
    by_cases hc : i < 3
    · rw [if_pos hc]
    · rw [if_neg hc]
      have h3e : i = 3 := by omega
      subst h3e
      rw [if_neg (by decide)]
  have he : ∀ i, 4 ≤ i → i ≤ 9 → emitAt files i = some (files.getD i 0, files.take i) := by
    intro i h4 h9
    unfold emitAt
    rw [List.length_take, hlen]
    have hmin : min i 10 = i := by omega
    rw [hmin]
    rw [if_neg (by omega), if_pos (by simp [trainAndPredictEmits]; omega)]
    rw [htake]
  have hrecs : progressiveRecords files =
      [(files.getD 4 0, files.take 4), (files.getD 5 0, files.take 5),
       (files.getD 6 0, files.take 6), (files.getD 7 0, files.take 7),
       (files.getD 8 0, files.take 8), (files.getD 9 0, files.take 9)] := by
    unfold progressiveRecords
    rw [hid, hlen]
    have hr : (List.range 10).drop 1 = [1, 2, 3, 4, 5, 6, 7, 8, 9] := rfl
    rw [hr]
    simp only [List.filterMap_cons, List.filterMap_nil,
      hnone 1 (by omega) (by omega), hnone 2 (by omega) (by omega),
      hnone 3 (by omega) (by omega),
      he 4 (by omega) (by omega), he 5 (by omega) (by omega),
      he 6 (by omega) (by omega), he 7 (by omega) (by omega),
      he 8 (by omega) (by omega), he 9 (by omega) (by omega)]
  have hd : ∀ n, n < files.length → files.drop n = files.getD n 0 :: files.drop (n + 1) := by
    intro n h
    rw [List.drop_eq_getElem_cons h, List.getD_eq_getElem files 0 h]
  refine ⟨?_, ?_, ?_⟩
  · rw [hrecs]
    rfl
  · rw [hrecs]
    rw [hd 4 (by omega), hd 5 (by omega), hd 6 (by omega), hd 7 (by omega),
      hd 8 (by omega), hd 9 (by omega), List.drop_eq_nil_of_le (by omega)]
    rfl
  · intro rec hrec
    rw [hrecs] at hrec
    simp only [List.mem_cons, List.not_mem_nil, or_false] at hrec
    rcases hrec with rfl | rfl | rfl | rfl | rfl | rfl <;>
      exact (sorted_filter_lt files hsort _ (by omega)).symm

/-- The concrete strictly increasing 10-day history of the C1 witness. -/
def witnessDates : List ℕ := [10, 11, 12, 13, 14, 15, 16, 17, 18, 19]

/-- C1 witness: on the concrete 10-day history 10..19 the progressive
run emits 6 records, their targets are days 5 through 10, and the first
emitted record trains on exactly the dates before day 14. -/
theorem progressive_run_ten_day_emissions_witness :
    (progressiveRecords witnessDates).length = 6
    ∧ (progressiveRecords witnessDates).map Prod.fst = [14, 15, 16, 17, 18, 19]
    ∧ [10, 11, 12, 13] = witnessDates.filter (fun d => d < 14) :=
  ⟨(progressive_run_ten_day_emissions witnessDates rfl (by decide)).1,
   (progressive_run_ten_day_emissions witnessDates rfl (by decide)).2.1,
   (progressive_run_ten_day_emissions witnessDates rfl (by decide)).2.2
     (14, [10, 11, 12, 13]) (by decide)⟩

/-- The emission guard of the progressive-loop embedding agrees with the
windower inside `train_and_predict`: a prediction comes back exactly
when `create_sequences` succeeds on the training table, i.e. when the
table has at least `TIMESTEPS + 1 = 4` rows. -/
theorem trainAndPredictEmits_iff_windower_ok (data : List (List ℚ)) :
    trainAndPredictEmits data.length = (createSequencesGen data 3).isOk := by
  unfold trainAndPredictEmits createSequencesGen
  split
  · next h =>
    simp only [Except.isOk, Except.toBool]
    simp only [decide_eq_false_iff_not]
    omega
  · next h =>
    simp only [Except.isOk, Except.toBool]
    simp only [decide_eq_true_eq]
    omega
